import Mathlib

/-!
# hub2prom: the Hubitat-to-Prometheus collector

A shallow embedding of `main.go`: the configuration, the collector built by
`newHubCollector`, and one scrape cycle (`hubCollector.Collect`), over an explicit
model of the Go maps and of the Prometheus `GaugeVec` children the collector mutates.

The outside world enters as data:
* the result of the HTTP round trip and of `json.Unmarshal` is an `HttpResult`;
* float64 values are an abstract type `V` with the two constants the code writes
  (`0` and `1`) and the function `strconv.ParseFloat(·, 64)`, bundled in `Float64`;
* `url.QueryEscape` is a function parameter.
-/

namespace Hub2Prom

/-! ## Go maps -/

/-- Go map read with comma-ok, `v, ok := m[k]`: the value stored under `a`, if any.
A map is kept as the list of its entries. -/
def index {K B : Type} [DecidableEq K] : List (K × B) → K → Option B
  | [], _ => none
  | (k, b) :: rest, a => if k = a then some b else index rest a

/-- Go map write, `m[a] = v`: overwrite the entry of `a` in place, or add one. -/
def assign {K B : Type} [DecidableEq K] : List (K × B) → K → B → List (K × B)
  | [], a, v => [(a, v)]
  | (k, b) :: rest, a, v => if k = a then (k, v) :: rest else (k, b) :: assign rest a v

/-- The keys of a map. -/
def keys {K B : Type} (m : List (K × B)) : List K := m.map Prod.fst

/-! ## Strings -/

/-- Go `strings.TrimSuffix(s, suffix)`: `s` without the given trailing suffix, once;
`s` itself when it does not end in `suffix`. -/
def TrimSuffix (s suffix : String) : String :=
  if suffix.data.isSuffixOf s.data then
    String.mk (s.data.take (s.data.length - suffix.data.length))
  else s

/-- Go `strings.HasSuffix`. -/
def HasSuffix (s suffix : String) : Bool := suffix.data.isSuffixOf s.data

/-- Go `strings.Contains`. -/
def Contains (s sub : String) : Bool := s.data.tails.any (fun t => sub.data.isPrefixOf t)

/-! ## float64 -/

/-- What the collector uses of float64: the constants `0` and `1` it writes for the
enumerated attributes, and `strconv.ParseFloat(s, 64)` (`none` when it returns an error). -/
structure Float64 (V : Type) where
  zero : V
  one : V
  ParseFloat : String → Option V

/-! ## Prometheus gauges -/

/-- The label set `prometheus.Labels{"name": .., "label": .., "room": ..}`. -/
structure Labels where
  name : String
  label : String
  room : String
deriving DecidableEq, Repr

/-- A `prometheus.GaugeVec` with variable labels name, label, room: its children,
one gauge value per label set. -/
abbrev GaugeVec (V : Type) := List (Labels × V)

/-- Prometheus `GaugeVec.With(labels)`: the child for `labels`; a child accessed for the
first time is created, with the initial gauge value 0. -/
def GaugeVec.With {V : Type} (fl : Float64 V) (vec : GaugeVec V) (labels : Labels) : GaugeVec V :=
  match index vec labels with
  | some _ => vec
  | none => assign vec labels fl.zero

/-- Prometheus `Gauge.Set(value)` on the child of `vec` for `labels`. -/
def GaugeVec.Set {V : Type} (vec : GaugeVec V) (labels : Labels) (value : V) : GaugeVec V :=
  assign vec labels value

/-- Prometheus `GaugeVec.Reset()`: delete all children. -/
def GaugeVec.Reset {V : Type} (_vec : GaugeVec V) : GaugeVec V := []

/-- One sample sent to the exposition layer: metric name, label set, value. -/
abbrev Metric (V : Type) := String × Labels × V

/-- Prometheus `GaugeVec.Collect(ch)` for the vector named `name`: one sample per child. -/
def GaugeVec.Collect {V : Type} (name : String) (vec : GaugeVec V) : List (Metric V) :=
  vec.map (fun child => (name, child.1, child.2))

/-! ## The program -/

/-- The YAML configuration. -/
structure Config where
  MakerAPI : String
  AccessToken : String
  Metrics : List String
deriving DecidableEq, Repr

/-- A decoded attribute value (`interface{}` filled by `json.Unmarshal`). The collector
only ever asks whether it is a string. -/
inductive RawValue where
  | str (s : String)
  | null
  | bool (b : Bool)
  | number
  | array
  | object
deriving DecidableEq, Repr

/-- One device of the Maker API response. `Attributes` is a Go map, listed in the
order in which the scrape at hand ranges over it. -/
structure Device where
  Name : String
  Label : String
  Room : String
  Attributes : List (String × RawValue)
deriving DecidableEq, Repr

/-- The JSON returned by the Maker API for all devices. -/
abbrev allDevices := List Device

/-- The collector: `gauges` maps a metric name to its gauge vector. -/
structure hubCollector (V : Type) where
  apiBase : String
  accessToken : String
  gauges : List (String × GaugeVec V)

/-- Build the collector from the configuration. -/
def newHubCollector {V : Type} (cfg : Config) : hubCollector V :=
  { apiBase := TrimSuffix cfg.MakerAPI "/"
    accessToken := cfg.AccessToken
    gauges := cfg.Metrics.foldl (fun gauges m => assign gauges m ([] : GaugeVec V)) [] }

/-- The URL requested by `Collect`: `allURL + url.QueryEscape(hc.accessToken)`. -/
def scrapeURL {V : Type} (QueryEscape : String → String) (hc : hubCollector V) : String :=
  hc.apiBase ++ "/all?access_token=" ++ QueryEscape hc.accessToken

/-- What came back from `ioutil.ReadAll` and `json.Unmarshal`. -/
inductive Body where
  | readFailed
  | undecodable
  | decoded (all : allDevices)
deriving DecidableEq, Repr

/-- What came back from `http.Get`. -/
inductive HttpResult where
  | requestFailed
  | response (StatusCode : Nat) (body : Body)
deriving DecidableEq, Repr

/-- The label set of a device. -/
def labelSet (dev : Device) : Labels :=
  { name := dev.Name, label := dev.Label, room := dev.Room }

/-- The body of the inner loop of `Collect` for one entry of `dev.Attributes`. -/
def collectAttr {V : Type} (fl : Float64 V) (labels : Labels)
    (gauges : List (String × GaugeVec V)) (entry : String × RawValue) :
    List (String × GaugeVec V) :=
  match index gauges entry.1 with
  | none => gauges
  | some gaugeVec =>
    let withGauge := gaugeVec.With fl labels
    let gauges := assign gauges entry.1 withGauge
    match entry.2 with
    | RawValue.str rawStr =>
      if entry.1 = "motion" then
        if rawStr = "inactive" then assign gauges entry.1 (withGauge.Set labels fl.zero)
        else if rawStr = "active" then assign gauges entry.1 (withGauge.Set labels fl.one)
        else gauges
      else if entry.1 = "contact" then
        if rawStr = "closed" then assign gauges entry.1 (withGauge.Set labels fl.zero)
        else if rawStr = "open" then assign gauges entry.1 (withGauge.Set labels fl.one)
        else gauges
      else
        match fl.ParseFloat rawStr with
        | none => gauges
        | some value => assign gauges entry.1 (withGauge.Set labels value)
    | _ => gauges

/-- The body of the outer loop of `Collect` for one device. -/
def collectDevice {V : Type} (fl : Float64 V) (gauges : List (String × GaugeVec V))
    (dev : Device) : List (String × GaugeVec V) :=
  dev.Attributes.foldl (collectAttr fl (labelSet dev)) gauges

/-- The first loop of a successful `Collect`: reset every gauge vector. -/
def resetAll {V : Type} (gauges : List (String × GaugeVec V)) : List (String × GaugeVec V) :=
  gauges.map (fun g => (g.1, g.2.Reset))

/-- The last loop of a successful `Collect`: every gauge vector sends its children. -/
def collectAll {V : Type} (gauges : List (String × GaugeVec V)) : List (Metric V) :=
  gauges.flatMap (fun g => GaugeVec.Collect g.1 g.2)

/-- One scrape: the collector afterwards, and the samples sent on `ch`. -/
def Collect {V : Type} (fl : Float64 V) (hc : hubCollector V) (resp : HttpResult) :
    hubCollector V × List (Metric V) :=
  match resp with
  | HttpResult.requestFailed => (hc, [])
  | HttpResult.response StatusCode body =>
    if StatusCode ≠ 200 then (hc, [])
    else
      match body with
      | Body.readFailed => (hc, [])
      | Body.undecodable => (hc, [])
      | Body.decoded all =>
        let gauges := all.foldl (collectDevice fl) (resetAll hc.gauges)
        ({ hc with gauges := gauges }, collectAll gauges)

/-- The series held by a collector: every child of every gauge vector. -/
def held {V : Type} (hc : hubCollector V) : List (Metric V) := collectAll hc.gauges

/-- The value of the child of gauge vector `attr` for `labels`, if there is one. -/
def lookupSeries {V : Type} (gauges : List (String × GaugeVec V)) (attr : String)
    (labels : Labels) : Option V :=
  (index gauges attr).bind (fun vec => index vec labels)

/-- The value of the series of metric `attr` with label set `labels`, if it is held. -/
def series {V : Type} (hc : hubCollector V) (attr : String) (labels : Labels) : Option V :=
  lookupSeries hc.gauges attr labels

/-- The collector after a history of scrapes, starting from `newHubCollector cfg`. -/
def afterScrapes {V : Type} (fl : Float64 V) (cfg : Config) (history : List HttpResult) :
    hubCollector V :=
  history.foldl (fun hc resp => (Collect fl hc resp).1) (newHubCollector cfg)

/-- A fetch succeeded with the devices `all`. -/
def fetched (all : allDevices) : HttpResult := HttpResult.response 200 (Body.decoded all)

/-- A fetch failed: transport error, non-200 status, body read failure or JSON decode
failure. -/
def fetchFailed (resp : HttpResult) : Bool :=
  match resp with
  | HttpResult.requestFailed => true
  | HttpResult.response StatusCode body =>
    StatusCode != 200 ||
      (match body with
       | Body.readFailed => true
       | Body.undecodable => true
       | Body.decoded _ => false)

/-! ## Reading the loops as one pass over readings -/

/-- The value `Collect` sets for the reading `attr = raw`, if it sets one: the cases of
its `switch` that reach `gauge.Set`. -/
def coerced {V : Type} (fl : Float64 V) (attr : String) (raw : RawValue) : Option V :=
  match raw with
  | RawValue.str rawStr =>
    if attr = "motion" then
      if rawStr = "inactive" then some fl.zero
      else if rawStr = "active" then some fl.one
      else none
    else if attr = "contact" then
      if rawStr = "closed" then some fl.zero
      else if rawStr = "open" then some fl.one
      else none
    else fl.ParseFloat rawStr
  | _ => none

/-- The gauge vector after the loop body has handled the reading `attr = raw` of a
device labelled `labels`: the child exists, and holds the coerced value if there is one. -/
def written {V : Type} (fl : Float64 V) (labels : Labels) (vec : GaugeVec V) (attr : String)
    (raw : RawValue) : GaugeVec V :=
  match coerced fl attr raw with
  | none => vec.With fl labels
  | some value => (vec.With fl labels).Set labels value

/-- The readings of a response in the order `Collect` visits them: each attribute entry
with the label set of its device. -/
def readings (all : allDevices) : List (Labels × String × RawValue) :=
  all.flatMap (fun dev => dev.Attributes.map (fun entry => (labelSet dev, entry)))

/-- The inner loop body, on a reading. -/
def collectReading {V : Type} (fl : Float64 V) (gauges : List (String × GaugeVec V))
    (r : Labels × String × RawValue) : List (String × GaugeVec V) :=
  collectAttr fl r.1 gauges r.2

/-- The gauge vectors are a map of maps: no metric name twice, no label set twice in a
vector. -/
def WF {V : Type} (gauges : List (String × GaugeVec V)) : Prop :=
  (keys gauges).Nodup ∧ ∀ g ∈ gauges, (keys g.2).Nodup

instance {V : Type} (gauges : List (String × GaugeVec V)) : Decidable (WF gauges) := by
  unfold WF; infer_instance

/-- The attribute maps of a response are maps: no attribute name twice in a device. -/
def wellFormed (all : allDevices) : Prop :=
  ∀ dev ∈ all, (keys dev.Attributes).Nodup

instance (all : allDevices) : Decidable (wellFormed all) := by
  unfold wellFormed; infer_instance

/-- The same response, with each attribute map possibly ranged over in another order. -/
def sameResponse (all other : allDevices) : Prop :=
  List.Forall₂ (fun d e => d.Name = e.Name ∧ d.Label = e.Label ∧ d.Room = e.Room ∧
    d.Attributes.Perm e.Attributes) all other

/-- The coercion table of the specification: the reading `attr = s` stands for `value`. -/
def tableValue {V : Type} (fl : Float64 V) (attr s : String) (value : V) : Prop :=
  (attr = "motion" ∧ s = "inactive" ∧ value = fl.zero) ∨
  (attr = "motion" ∧ s = "active" ∧ value = fl.one) ∨
  (attr = "contact" ∧ s = "closed" ∧ value = fl.zero) ∨
  (attr = "contact" ∧ s = "open" ∧ value = fl.one) ∨
  (attr ≠ "motion" ∧ attr ≠ "contact" ∧ fl.ParseFloat s = some value)

/-- A malformed or non-string reading, in the words of the specification: a value that
is not a string, a `motion` string other than inactive and active, a `contact` string
other than closed and open, or a string of another attribute that does not parse as a
number. -/
def malformed {V : Type} (fl : Float64 V) (attr : String) (raw : RawValue) : Prop :=
  match raw with
  | RawValue.str s =>
    (attr = "motion" ∧ s ≠ "inactive" ∧ s ≠ "active") ∨
    (attr = "contact" ∧ s ≠ "closed" ∧ s ≠ "open") ∨
    (attr ≠ "motion" ∧ attr ≠ "contact" ∧ fl.ParseFloat s = none)
  | _ => True

/-! ## Sample float64 interpretation -/

/-- A decimal number `mantissa / 10 ^ scale`, kept without trailing fraction zeros. -/
structure Decimal where
  mantissa : Nat
  scale : Nat
deriving DecidableEq, Repr

/-- The number written by a list of digits; `none` for an empty list or a non-digit. -/
def digitsValue (cs : List Char) : Option Nat :=
  if cs = [] then none
  else cs.foldl (fun acc c =>
    acc.bind (fun n => if c.isDigit then some (10 * n + (c.toNat - 48)) else none)) (some 0)

/-- Read an unsigned decimal literal without exponent: digits with an optional point,
as in `123`, `123.45`, `123.` or `.5`. -/
def parseDecimal (s : String) : Option Decimal :=
  match s.data.span (fun c => c != '.') with
  | (whole, []) => (digitsValue whole).map (fun n => { mantissa := n, scale := 0 })
  | (whole, _ :: fraction) =>
    let frac := (fraction.reverse.dropWhile (fun c => c == '0')).reverse
    (digitsValue (whole ++ frac)).map (fun n => { mantissa := n, scale := frac.length })

/-- A float64 interpretation for evaluating concrete scrapes: decimals, with
`ParseFloat` reading unsigned decimal literals without exponent and rejecting every
other string. On the literals of the samples below it gives what `strconv.ParseFloat`
gives: `"68.5"` is 685/10, `"40"` is 40, `"55"` is 55, `"87"` is 87, and `"warm"` is an
error. -/
def decimalFloat : Float64 Decimal :=
  { zero := { mantissa := 0, scale := 0 }
    one := { mantissa := 1, scale := 0 }
    ParseFloat := parseDecimal }

/-! ## Sample inputs -/

/-- A configuration exporting four metrics. -/
def sampleConfig : Config :=
  { MakerAPI := "http://hub/apps/api/1/devices/"
    AccessToken := "secret"
    Metrics := ["temperature", "humidity", "motion", "contact"] }

/-- The configuration of the end-to-end example. -/
def climateConfig : Config :=
  { MakerAPI := "http://hub/apps/api/1/devices"
    AccessToken := "secret"
    Metrics := ["temperature", "humidity"] }

/-- A configuration whose base URL ends in two slashes. -/
def doubleSlashConfig : Config :=
  { MakerAPI := "http://hub/apps/api/1/devices//"
    AccessToken := "secret"
    Metrics := ["temperature"] }

/-- The device of the end-to-end example. -/
def aerQ : Device :=
  { Name := "Aeotec AerQ"
    Label := "Living Room T&H Sensor"
    Room := "Living Room"
    Attributes := [("temperature", RawValue.str "68.5"), ("humidity", RawValue.str "40")] }

/-- A motion sensor that also reports a battery level, which is not exported. -/
def hallMotion : Device :=
  { Name := "Hue Motion"
    Label := "Hall Motion"
    Room := "Hall"
    Attributes := [("battery", RawValue.str "87"), ("motion", RawValue.str "active")] }

/-- A door sensor. -/
def frontDoor : Device :=
  { Name := "Aqara Door"
    Label := "Front Door"
    Room := ""
    Attributes := [("contact", RawValue.str "closed")] }

/-- A sensor whose temperature the hub reports as null. -/
def nullSensor : Device :=
  { Name := "Generic Sensor"
    Label := "Attic"
    Room := "Attic"
    Attributes := [("temperature", RawValue.null), ("humidity", RawValue.str "55")] }

/-- A sensor sending strings that cannot be coerced. -/
def oddSensor : Device :=
  { Name := "Odd Sensor"
    Label := "Garage"
    Room := "Garage"
    Attributes := [("motion", RawValue.str "flickering"), ("temperature", RawValue.str "warm")] }

/-- An HTTP 500 answer. -/
def serverError : HttpResult := HttpResult.response 500 (Body.decoded [])

/-! ## Go maps: reads after writes -/

section maps

variable {K B : Type} [DecidableEq K]

theorem index_assign (m : List (K × B)) (a k : K) (v : B) :
    index (assign m a v) k = if a = k then some v else index m k := by
  induction m with
  | nil => simp [assign, index]
  | cons p rest ih =>
    obtain ⟨k0, b0⟩ := p
    by_cases h : k0 = a
    · subst h
      by_cases hk : k0 = k <;> simp [assign, index, hk]
    · by_cases hk : k0 = k
      · subst hk
        have : a ≠ k0 := fun e => h e.symm
        simp [assign, index, h, this]
      · simp [assign, index, h, hk, ih]

theorem index_eq_none_iff (m : List (K × B)) (a : K) : index m a = none ↔ a ∉ keys m := by
  induction m with
  | nil => simp [index, keys]
  | cons p rest ih =>
    obtain ⟨k0, b0⟩ := p
    by_cases h : k0 = a
    · simp [index, keys, h]
    · have h2 : a ≠ k0 := fun e => h e.symm
      simp only [keys] at ih
      simp [index, keys, h, h2, ih]

theorem mem_keys_of_index {m : List (K × B)} {a : K} {b : B} (h : index m a = some b) :
    a ∈ keys m := by
  by_contra hn
  rw [← index_eq_none_iff] at hn
  rw [hn] at h
  cases h

theorem index_isSome_of_mem_keys {m : List (K × B)} {a : K} (h : a ∈ keys m) :
    ∃ b, index m a = some b := by
  cases hx : index m a with
  | none => exact absurd h ((index_eq_none_iff m a).1 hx)
  | some b => exact ⟨b, rfl⟩

theorem mem_of_index {m : List (K × B)} {a : K} {b : B} (h : index m a = some b) :
    (a, b) ∈ m := by
  induction m with
  | nil => simp [index] at h
  | cons p rest ih =>
    obtain ⟨k0, b0⟩ := p
    by_cases hk : k0 = a
    · simp [index, hk] at h
      simp [hk, h]
    · simp [index, hk] at h
      exact List.mem_cons_of_mem _ (ih h)

theorem index_of_mem_of_nodup {m : List (K × B)} (hm : (keys m).Nodup) {a : K} {b : B}
    (h : (a, b) ∈ m) : index m a = some b := by
  induction m with
  | nil => simp at h
  | cons p rest ih =>
    obtain ⟨k0, b0⟩ := p
    simp only [keys, List.map_cons, List.nodup_cons] at hm
    rcases List.mem_cons.1 h with h | h
    · cases h
      simp [index]
    · have hne : k0 ≠ a := by
        intro e
        subst e
        exact hm.1 (List.mem_map_of_mem Prod.fst h)
      simp only [index, hne, if_false]
      exact ih hm.2 h

theorem keys_assign_of_mem (m : List (K × B)) (a : K) (v : B) (h : a ∈ keys m) :
    keys (assign m a v) = keys m := by
  induction m with
  | nil => simp [keys] at h
  | cons p rest ih =>
    obtain ⟨k0, b0⟩ := p
    by_cases hk : k0 = a
    · simp [assign, keys, hk]
    · have h2 : a ∈ keys rest := by
        simp only [keys, List.map_cons, List.mem_cons] at h
        rcases h with h | h
        · exact absurd h.symm hk
        · exact h
      have := ih h2
      simp only [keys] at this
      simp [assign, keys, hk, this]

theorem keys_assign_of_not_mem (m : List (K × B)) (a : K) (v : B) (h : a ∉ keys m) :
    keys (assign m a v) = keys m ++ [a] := by
  induction m with
  | nil => simp [keys, assign]
  | cons p rest ih =>
    obtain ⟨k0, b0⟩ := p
    simp only [keys, List.map_cons, List.mem_cons, not_or] at h
    have hk : k0 ≠ a := fun e => h.1 e.symm
    have := ih h.2
    simp only [keys] at this
    simp [assign, keys, hk, this]

theorem nodup_keys_assign (m : List (K × B)) (a : K) (v : B) (h : (keys m).Nodup) :
    (keys (assign m a v)).Nodup := by
  by_cases ha : a ∈ keys m
  · rw [keys_assign_of_mem m a v ha]
    exact h
  · rw [keys_assign_of_not_mem m a v ha]
    exact List.Nodup.append h (List.nodup_singleton a) (by simpa using ha)

theorem mem_assign {m : List (K × B)} {a : K} {v : B} {p : K × B} (h : p ∈ assign m a v) :
    p ∈ m ∨ p = (a, v) := by
  induction m with
  | nil => simpa [assign] using h
  | cons q rest ih =>
    obtain ⟨k0, b0⟩ := q
    by_cases hk : k0 = a
    · simp only [assign, hk, if_true, List.mem_cons] at h
      rcases h with h | h
      · exact Or.inr h
      · exact Or.inl (List.mem_cons_of_mem _ h)
    · simp only [assign, hk, if_false, List.mem_cons] at h
      rcases h with h | h
      · exact Or.inl (by simp [h])
      · rcases ih h with h | h
        · exact Or.inl (List.mem_cons_of_mem _ h)
        · exact Or.inr h

theorem assign_assign (m : List (K × B)) (a : K) (v w : B) :
    assign (assign m a v) a w = assign m a w := by
  induction m with
  | nil => simp [assign]
  | cons p rest ih =>
    obtain ⟨k0, b0⟩ := p
    by_cases hk : k0 = a
    · simp [assign, hk]
    · simp [assign, hk, ih]

theorem assign_comm (m : List (K × B)) (a b : K) (v w : B) (hab : a ≠ b)
    (ha : a ∈ keys m) (hb : b ∈ keys m) :
    assign (assign m a v) b w = assign (assign m b w) a v := by
  induction m with
  | nil => simp [keys] at ha
  | cons p rest ih =>
    obtain ⟨k0, b0⟩ := p
    by_cases hka : k0 = a
    · subst hka
      simp [assign, hab]
    · by_cases hkb : k0 = b
      · subst hkb
        simp [assign, hka]
      · have ha2 : a ∈ keys rest := by
          simp only [keys, List.map_cons, List.mem_cons] at ha
          rcases ha with h | h
          · exact absurd h.symm hka
          · exact h
        have hb2 : b ∈ keys rest := by
          simp only [keys, List.map_cons, List.mem_cons] at hb
          rcases hb with h | h
          · exact absurd h.symm hkb
          · exact h
        simp [assign, hka, hkb, ih ha2 hb2]

end maps

/-! ## One reading -/

section reading

variable {V : Type}

theorem collectAttr_eq (fl : Float64 V) (labels : Labels) (gauges : List (String × GaugeVec V))
    (entry : String × RawValue) :
    collectAttr fl labels gauges entry =
      match index gauges entry.1 with
      | none => gauges
      | some vec => assign gauges entry.1 (written fl labels vec entry.1 entry.2) := by
  obtain ⟨attr, raw⟩ := entry
  unfold collectAttr written coerced
  cases hg : index gauges attr with
  | none => rfl
  | some vec =>
    cases raw with
    | str rawStr =>
      simp only
      cases hp : fl.ParseFloat rawStr <;> split_ifs <;> simp only [assign_assign]
    | _ => rfl

theorem index_With (fl : Float64 V) (vec : GaugeVec V) (labels other : Labels) :
    index (vec.With fl labels) other =
      if labels = other then some ((index vec labels).getD fl.zero) else index vec other := by
  unfold GaugeVec.With
  cases h : index vec labels with
  | none =>
    simp only [index_assign, Option.getD_none]
  | some v =>
    by_cases e : labels = other
    · subst e
      simp [h]
    · simp [e]

theorem index_written (fl : Float64 V) (labels other : Labels) (vec : GaugeVec V)
    (attr : String) (raw : RawValue) :
    index (written fl labels vec attr raw) other =
      if labels = other then
        some ((coerced fl attr raw).getD ((index vec labels).getD fl.zero))
      else index vec other := by
  unfold written
  cases h : coerced fl attr raw with
  | none => simp only [index_With, Option.getD_none]
  | some value =>
    simp only [GaugeVec.Set, index_assign, index_With, Option.getD_some]
    by_cases e : labels = other <;> simp [e]

theorem keys_collectAttr (fl : Float64 V) (labels : Labels)
    (gauges : List (String × GaugeVec V)) (entry : String × RawValue) :
    keys (collectAttr fl labels gauges entry) = keys gauges := by
  rw [collectAttr_eq]
  cases h : index gauges entry.1 with
  | none => rfl
  | some vec => exact keys_assign_of_mem _ _ _ (mem_keys_of_index h)

theorem lookupSeries_collectAttr (fl : Float64 V) (labels other : Labels)
    (gauges : List (String × GaugeVec V)) (entry : String × RawValue) (attr : String) :
    lookupSeries (collectAttr fl labels gauges entry) attr other =
      if entry.1 = attr ∧ labels = other then
        (index gauges entry.1).map (fun vec =>
          (coerced fl entry.1 entry.2).getD ((index vec labels).getD fl.zero))
      else lookupSeries gauges attr other := by
  rw [collectAttr_eq]
  unfold lookupSeries
  cases h : index gauges entry.1 with
  | none =>
    by_cases e : entry.1 = attr
    · subst e
      simp [h]
    · simp [e]
  | some vec =>
    simp only [index_assign]
    by_cases e : entry.1 = attr
    · subst e
      simp only [if_true, Option.some_bind, index_written, true_and, h, Option.map_some']
    · simp [e]

theorem lookupSeries_eq_none_of_not_mem (gauges : List (String × GaugeVec V)) (attr : String)
    (labels : Labels) (h : attr ∉ keys gauges) : lookupSeries gauges attr labels = none := by
  unfold lookupSeries
  rw [(index_eq_none_iff gauges attr).2 h]
  rfl

theorem lookupSeries_collectReading (fl : Float64 V) (gauges : List (String × GaugeVec V))
    (r : Labels × String × RawValue) (attr : String) (labels : Labels) :
    lookupSeries (collectReading fl gauges r) attr labels =
      if r.2.1 = attr ∧ r.1 = labels then
        (if attr ∈ keys gauges then
          some ((coerced fl attr r.2.2).getD ((lookupSeries gauges attr labels).getD fl.zero))
        else none)
      else lookupSeries gauges attr labels := by
  unfold collectReading
  rw [lookupSeries_collectAttr]
  by_cases e : r.2.1 = attr ∧ r.1 = labels
  · obtain ⟨e1, e2⟩ := e
    subst e1
    subst e2
    simp only [and_self, if_true]
    cases h : index gauges r.2.1 with
    | none =>
      have := (index_eq_none_iff gauges r.2.1).1 h
      simp [this]
    | some vec =>
      have := mem_keys_of_index h
      simp [this, lookupSeries, h]
  · simp only [e, if_false]

theorem keys_collectReading (fl : Float64 V) (gauges : List (String × GaugeVec V))
    (r : Labels × String × RawValue) : keys (collectReading fl gauges r) = keys gauges :=
  keys_collectAttr fl r.1 gauges r.2

end reading

/-! ## A whole response -/

section response

variable {V : Type}

theorem foldl_collectDevice (fl : Float64 V) (all : allDevices)
    (gauges : List (String × GaugeVec V)) :
    all.foldl (collectDevice fl) gauges = (readings all).foldl (collectReading fl) gauges := by
  induction all generalizing gauges with
  | nil => rfl
  | cons dev rest ih =>
    simp only [List.foldl_cons, readings, List.flatMap_cons, List.foldl_append]
    rw [ih]
    simp only [readings, collectDevice, List.foldl_map]
    rfl

theorem readings_append (pre post : allDevices) :
    readings (pre ++ post) = readings pre ++ readings post := by
  simp [readings]

theorem readings_cons (dev : Device) (post : allDevices) :
    readings (dev :: post) =
      dev.Attributes.map (fun entry => (labelSet dev, entry)) ++ readings post := by
  simp [readings]

theorem mem_readings {all : allDevices} {r : Labels × String × RawValue} :
    r ∈ readings all ↔ ∃ dev ∈ all, r.1 = labelSet dev ∧ r.2 ∈ dev.Attributes := by
  obtain ⟨labels, entry⟩ := r
  simp only [readings, List.mem_flatMap, List.mem_map, Prod.mk.injEq]
  constructor
  · rintro ⟨dev, hd, e, he, h1, h2⟩
    exact ⟨dev, hd, h1.symm, h2 ▸ he⟩
  · rintro ⟨dev, hd, h1, h2⟩
    exact ⟨dev, hd, entry, h2, h1.symm, rfl⟩

theorem keys_foldl_collectReading (fl : Float64 V) (rs : List (Labels × String × RawValue))
    (gauges : List (String × GaugeVec V)) :
    keys (rs.foldl (collectReading fl) gauges) = keys gauges := by
  induction rs generalizing gauges with
  | nil => rfl
  | cons r rest ih => rw [List.foldl_cons, ih, keys_collectReading]

/-- Frame: readings of other (metric, label set) pairs leave a series as it is. -/
theorem lookupSeries_foldl_frame (fl : Float64 V) (rs : List (Labels × String × RawValue))
    (gauges : List (String × GaugeVec V)) (attr : String) (labels : Labels)
    (h : ∀ r ∈ rs, ¬ (r.2.1 = attr ∧ r.1 = labels)) :
    lookupSeries (rs.foldl (collectReading fl) gauges) attr labels
      = lookupSeries gauges attr labels := by
  induction rs generalizing gauges with
  | nil => rfl
  | cons r rest ih =>
    rw [List.foldl_cons, ih _ (fun x hx => h x (List.mem_cons_of_mem _ hx)),
      lookupSeries_collectReading, if_neg (h r (List.mem_cons_self _ _))]

theorem keys_resetAll (gauges : List (String × GaugeVec V)) :
    keys (resetAll gauges) = keys gauges := by
  simp [keys, resetAll, List.map_map, Function.comp_def]

theorem resetAll_eq (gauges : List (String × GaugeVec V)) :
    resetAll gauges = (keys gauges).map (fun k => (k, ([] : GaugeVec V))) := by
  simp [keys, resetAll, List.map_map, Function.comp_def, GaugeVec.Reset]

theorem lookupSeries_resetAll (gauges : List (String × GaugeVec V)) (attr : String)
    (labels : Labels) : lookupSeries (resetAll gauges) attr labels = none := by
  unfold lookupSeries
  cases h : index (resetAll gauges) attr with
  | none => rfl
  | some vec =>
    have hm := mem_of_index h
    simp only [resetAll, List.mem_map, Prod.mk.injEq] at hm
    obtain ⟨g, _, _, hv⟩ := hm
    rw [← hv]
    rfl

theorem Collect_fetched (fl : Float64 V) (hc : hubCollector V) (all : allDevices) :
    Collect fl hc (fetched all) =
      ({ hc with gauges := (readings all).foldl (collectReading fl) (resetAll hc.gauges) },
        collectAll ((readings all).foldl (collectReading fl) (resetAll hc.gauges))) := by
  simp [Collect, fetched, foldl_collectDevice]

theorem Collect_fetched_devices (fl : Float64 V) (hc : hubCollector V) (all : allDevices) :
    Collect fl hc (fetched all) =
      ({ hc with gauges := all.foldl (collectDevice fl) (resetAll hc.gauges) },
        collectAll (all.foldl (collectDevice fl) (resetAll hc.gauges))) := by
  simp [Collect, fetched]

theorem Collect_failed (fl : Float64 V) (hc : hubCollector V) (resp : HttpResult)
    (h : fetchFailed resp = true) : Collect fl hc resp = (hc, []) := by
  cases resp with
  | requestFailed => rfl
  | response code body =>
    by_cases hcode : code = 200
    · subst hcode
      cases body with
      | readFailed => rfl
      | undecodable => rfl
      | decoded all => simp [fetchFailed] at h
    · simp [Collect, hcode]

theorem fetchFailed_or_fetched (resp : HttpResult) :
    fetchFailed resp = true ∨ ∃ all, resp = fetched all := by
  cases resp with
  | requestFailed => exact Or.inl rfl
  | response code body =>
    by_cases hcode : code = 200
    · subst hcode
      cases body with
      | readFailed => exact Or.inl rfl
      | undecodable => exact Or.inl rfl
      | decoded all => exact Or.inr ⟨all, rfl⟩
    · left
      simp [fetchFailed, hcode]

theorem keys_Collect (fl : Float64 V) (hc : hubCollector V) (resp : HttpResult) :
    keys (Collect fl hc resp).1.gauges = keys hc.gauges := by
  rcases fetchFailed_or_fetched resp with h | ⟨all, rfl⟩
  · rw [Collect_failed fl hc resp h]
  · rw [Collect_fetched]
    simp only
    rw [keys_foldl_collectReading, keys_resetAll]

end response

/-! ## Reachable collectors -/

section reachable

variable {V : Type}

theorem WF_assign {gauges : List (String × GaugeVec V)} (h : WF gauges) (attr : String)
    (vec : GaugeVec V) (hv : (keys vec).Nodup) : WF (assign gauges attr vec) := by
  refine ⟨nodup_keys_assign _ _ _ h.1, ?_⟩
  intro g hg
  rcases mem_assign hg with hg | hg
  · exact h.2 g hg
  · rw [hg]
    exact hv

theorem nodup_keys_written (fl : Float64 V) (labels : Labels) (vec : GaugeVec V)
    (attr : String) (raw : RawValue) (h : (keys vec).Nodup) :
    (keys (written fl labels vec attr raw)).Nodup := by
  have hw : (keys (vec.With fl labels)).Nodup := by
    unfold GaugeVec.With
    cases index vec labels with
    | none => exact nodup_keys_assign _ _ _ h
    | some v => exact h
  unfold written
  cases coerced fl attr raw with
  | none => exact hw
  | some value => exact nodup_keys_assign _ _ _ hw

theorem WF_collectReading (fl : Float64 V) {gauges : List (String × GaugeVec V)}
    (h : WF gauges) (r : Labels × String × RawValue) : WF (collectReading fl gauges r) := by
  unfold collectReading
  rw [collectAttr_eq]
  cases hi : index gauges r.2.1 with
  | none => exact h
  | some vec =>
    exact WF_assign h _ _ (nodup_keys_written fl _ _ _ _ (h.2 _ (mem_of_index hi)))

theorem WF_foldl_collectReading (fl : Float64 V) (rs : List (Labels × String × RawValue))
    {gauges : List (String × GaugeVec V)} (h : WF gauges) :
    WF (rs.foldl (collectReading fl) gauges) := by
  induction rs generalizing gauges with
  | nil => exact h
  | cons r rest ih => exact ih (WF_collectReading fl h r)

theorem WF_resetAll {gauges : List (String × GaugeVec V)} (h : (keys gauges).Nodup) :
    WF (resetAll gauges) := by
  refine ⟨by rw [keys_resetAll]; exact h, ?_⟩
  intro g hg
  simp only [resetAll, List.mem_map] at hg
  obtain ⟨g0, _, rfl⟩ := hg
  exact List.nodup_nil

theorem WF_Collect (fl : Float64 V) {hc : hubCollector V} (h : WF hc.gauges)
    (resp : HttpResult) : WF (Collect fl hc resp).1.gauges := by
  rcases fetchFailed_or_fetched resp with hf | ⟨all, rfl⟩
  · rw [Collect_failed fl hc resp hf]
    exact h
  · rw [Collect_fetched]
    exact WF_foldl_collectReading fl _ (WF_resetAll h.1)

theorem WF_foldl_assign_nil (ms : List String) {gauges : List (String × GaugeVec V)}
    (h : WF gauges) :
    WF (ms.foldl (fun gauges m => assign gauges m ([] : GaugeVec V)) gauges) := by
  induction ms generalizing gauges with
  | nil => exact h
  | cons m rest ih => exact ih (WF_assign h m [] List.nodup_nil)

theorem mem_keys_assign (gauges : List (String × GaugeVec V)) (a k : String)
    (vec : GaugeVec V) : k ∈ keys (assign gauges a vec) ↔ k ∈ keys gauges ∨ k = a := by
  by_cases ha : a ∈ keys gauges
  · rw [keys_assign_of_mem _ _ _ ha]
    constructor
    · exact Or.inl
    · rintro (h | h)
      · exact h
      · exact h ▸ ha
  · rw [keys_assign_of_not_mem _ _ _ ha]
    simp

theorem mem_keys_foldl_assign_nil (ms : List String) (gauges : List (String × GaugeVec V))
    (k : String) :
    k ∈ keys (ms.foldl (fun gauges m => assign gauges m ([] : GaugeVec V)) gauges) ↔
      k ∈ keys gauges ∨ k ∈ ms := by
  induction ms generalizing gauges with
  | nil => simp
  | cons m rest ih =>
    rw [List.foldl_cons, ih, mem_keys_assign]
    simp only [List.mem_cons]
    tauto

theorem mem_keys_newHubCollector (cfg : Config) (k : String) :
    k ∈ keys (newHubCollector cfg : hubCollector V).gauges ↔ k ∈ cfg.Metrics := by
  unfold newHubCollector
  simp only
  rw [mem_keys_foldl_assign_nil]
  simp [keys]

theorem WF_newHubCollector (cfg : Config) : WF (newHubCollector cfg : hubCollector V).gauges :=
  WF_foldl_assign_nil cfg.Metrics ⟨List.nodup_nil, fun _ h => absurd h (List.not_mem_nil _)⟩

theorem afterScrapes_snoc (fl : Float64 V) (cfg : Config) (history : List HttpResult)
    (resp : HttpResult) :
    afterScrapes fl cfg (history ++ [resp]) = (Collect fl (afterScrapes fl cfg history) resp).1 := by
  simp [afterScrapes, List.foldl_append]

theorem keys_afterScrapes (fl : Float64 V) (cfg : Config) (history : List HttpResult) :
    keys (afterScrapes fl cfg history).gauges
      = keys (newHubCollector cfg : hubCollector V).gauges := by
  induction history using List.reverseRecOn with
  | nil => rfl
  | append_singleton history resp ih => rw [afterScrapes_snoc, keys_Collect, ih]

theorem WF_afterScrapes (fl : Float64 V) (cfg : Config) (history : List HttpResult) :
    WF (afterScrapes fl cfg history).gauges := by
  induction history using List.reverseRecOn with
  | nil => exact WF_newHubCollector cfg
  | append_singleton history resp ih =>
    rw [afterScrapes_snoc]
    exact WF_Collect fl ih resp

theorem mem_keys_afterScrapes (fl : Float64 V) (cfg : Config) (history : List HttpResult)
    (k : String) : k ∈ keys (afterScrapes fl cfg history).gauges ↔ k ∈ cfg.Metrics := by
  rw [keys_afterScrapes, mem_keys_newHubCollector]

/-- What is sent on `ch` is what the gauge vectors hold, series by series. -/
theorem mem_collectAll_iff {gauges : List (String × GaugeVec V)} (h : WF gauges)
    (attr : String) (labels : Labels) (value : V) :
    (attr, labels, value) ∈ collectAll gauges ↔ lookupSeries gauges attr labels = some value := by
  simp only [collectAll, GaugeVec.Collect, List.mem_flatMap, List.mem_map, Prod.mk.injEq,
    lookupSeries]
  constructor
  · rintro ⟨g, hg, child, hchild, h1, h2, h3⟩
    have hi : index gauges attr = some g.2 := by
      apply index_of_mem_of_nodup h.1
      rw [← h1]
      exact hg
    rw [hi]
    simp only [Option.some_bind]
    apply index_of_mem_of_nodup (h.2 g hg)
    rw [← h2, ← h3]
    exact hchild
  · intro hs
    cases hi : index gauges attr with
    | none => simp [hi] at hs
    | some vec =>
      rw [hi] at hs
      simp only [Option.some_bind] at hs
      exact ⟨(attr, vec), mem_of_index hi, (labels, value), mem_of_index hs, rfl, rfl, rfl⟩

theorem mem_keys_of_mem_collectAll {gauges : List (String × GaugeVec V)} {m : Metric V}
    (h : m ∈ collectAll gauges) : m.1 ∈ keys gauges := by
  simp only [collectAll, GaugeVec.Collect, List.mem_flatMap, List.mem_map] at h
  obtain ⟨g, hg, child, _, rfl⟩ := h
  exact List.mem_map_of_mem Prod.fst hg

end reachable

/-! ## The order of a map range does not matter -/

section order

variable {V : Type}

theorem collectAttr_comm (fl : Float64 V) (labels : Labels) (gauges : List (String × GaugeVec V))
    (x y : String × RawValue) (h : x.1 ≠ y.1) :
    collectAttr fl labels (collectAttr fl labels gauges x) y
      = collectAttr fl labels (collectAttr fl labels gauges y) x := by
  have h2 : y.1 ≠ x.1 := fun e => h e.symm
  cases hx : index gauges x.1 with
  | none =>
    cases hy : index gauges y.1 with
    | none => simp [collectAttr_eq, hx, hy]
    | some vy => simp [collectAttr_eq, hx, hy, index_assign, h2]
  | some vx =>
    cases hy : index gauges y.1 with
    | none => simp [collectAttr_eq, hx, hy, index_assign, h]
    | some vy =>
      simp only [collectAttr_eq, hx, hy, index_assign, h, h2, if_false]
      exact assign_comm gauges x.1 y.1 _ _ h (mem_keys_of_index hx) (mem_keys_of_index hy)

theorem collectDevice_perm (fl : Float64 V) (gauges : List (String × GaugeVec V))
    (d e : Device) (hl : labelSet d = labelSet e) (hp : d.Attributes.Perm e.Attributes)
    (hn : (keys d.Attributes).Nodup) : collectDevice fl gauges d = collectDevice fl gauges e := by
  unfold collectDevice
  rw [← hl]
  apply List.Perm.foldl_eq' hp
  intro x hx y hy z
  by_cases hxy : x.1 = y.1
  · have : x = y := List.inj_on_of_nodup_map hn hx hy hxy
    rw [this]
  · exact collectAttr_comm fl _ z x y hxy

theorem foldl_collectDevice_sameResponse (fl : Float64 V) (all other : allDevices)
    (hs : sameResponse all other) (hw : wellFormed all) (gauges : List (String × GaugeVec V)) :
    all.foldl (collectDevice fl) gauges = other.foldl (collectDevice fl) gauges := by
  unfold sameResponse at hs
  induction hs generalizing gauges with
  | nil => rfl
  | @cons d e ds es hde _ ih =>
    obtain ⟨h1, h2, h3, h4⟩ := hde
    have hl : labelSet d = labelSet e := by simp [labelSet, h1, h2, h3]
    simp only [List.foldl_cons]
    rw [collectDevice_perm fl gauges d e hl h4 (hw d (List.mem_cons_self _ _))]
    exact ih (fun dev hdev => hw dev (List.mem_cons_of_mem _ hdev)) _

end order

/-! ## The specification, claim by claim -/

section claims

variable {V : Type}

theorem Collect_snd (fl : Float64 V) (hc : hubCollector V) (resp : HttpResult) :
    (Collect fl hc resp).2 = [] ∨
      (Collect fl hc resp).2 = collectAll (Collect fl hc resp).1.gauges := by
  rcases fetchFailed_or_fetched resp with h | ⟨all, rfl⟩
  · rw [Collect_failed fl hc resp h]
    exact Or.inl rfl
  · rw [Collect_fetched]
    exact Or.inr rfl

theorem coerced_of_tableValue (fl : Float64 V) (attr s : String) (value : V)
    (h : tableValue fl attr s value) : coerced fl attr (RawValue.str s) = some value := by
  unfold coerced
  rcases h with ⟨h1, h2, h3⟩ | ⟨h1, h2, h3⟩ | ⟨h1, h2, h3⟩ | ⟨h1, h2, h3⟩ | ⟨h1, h2, h3⟩
  · subst h1 h2 h3
    simp
  · subst h1 h2 h3
    simp
  · subst h1 h2 h3
    simp
  · subst h1 h2 h3
    simp
  · simp [h1, h2, h3]

theorem coerced_of_malformed (fl : Float64 V) (attr : String) (raw : RawValue)
    (h : malformed fl attr raw) : coerced fl attr raw = none := by
  unfold coerced
  cases raw with
  | str s =>
    rcases h with ⟨h1, h2, h3⟩ | ⟨h1, h2, h3⟩ | ⟨h1, h2, h3⟩
    · subst h1
      simp [h2, h3]
    · subst h1
      simp [h2, h3]
    · simp [h1, h2, h3]
  | _ => rfl

/-- The last reading of a (metric, label set) pair in a response decides its series. -/
theorem lookupSeries_of_last_reading (fl : Float64 V)
    (xs ys : List (Labels × String × RawValue)) (gauges : List (String × GaugeVec V))
    (labels : Labels) (attr : String) (raw : RawValue) (value : V)
    (hk : attr ∈ keys gauges) (hc : coerced fl attr raw = some value)
    (hys : ∀ r ∈ ys, ¬ (r.2.1 = attr ∧ r.1 = labels)) :
    lookupSeries ((xs ++ (labels, attr, raw) :: ys).foldl (collectReading fl) gauges)
      attr labels = some value := by
  rw [List.foldl_append, List.foldl_cons, lookupSeries_foldl_frame fl ys _ attr labels hys,
    lookupSeries_collectReading]
  simp [keys_foldl_collectReading, hk, hc]

/-- Two gauge maps with the same metrics that agree on every series but the one of
`attr` and `labels` still do so after the same readings. -/
theorem lookupSeries_foldl_agree (fl : Float64 V) (rs : List (Labels × String × RawValue))
    (attr : String) (labels : Labels) (g1 g2 : List (String × GaugeVec V))
    (hkeys : keys g1 = keys g2)
    (hagree : ∀ a l, ¬ (a = attr ∧ l = labels) → lookupSeries g1 a l = lookupSeries g2 a l) :
    ∀ a l, ¬ (a = attr ∧ l = labels) →
      lookupSeries (rs.foldl (collectReading fl) g1) a l
        = lookupSeries (rs.foldl (collectReading fl) g2) a l := by
  induction rs generalizing g1 g2 with
  | nil => exact hagree
  | cons r rest ih =>
    simp only [List.foldl_cons]
    apply ih
    · rw [keys_collectReading, keys_collectReading, hkeys]
    · intro a l hal
      rw [lookupSeries_collectReading, lookupSeries_collectReading, hkeys, hagree a l hal]

theorem keys_newHubCollector_climate (cfg : Config)
    (hcfg : cfg.Metrics = ["temperature", "humidity"]) :
    keys (newHubCollector cfg : hubCollector V).gauges = ["temperature", "humidity"] := by
  unfold newHubCollector
  simp only
  rw [hcfg]
  simp [assign, keys]

/-- C1: after a successful scrape, a configured attribute of a device whose raw value is
a string that the coercion table maps to `value` (motion inactive/active and contact
closed/open to 0/1, any other attribute to its parsed number) has its series, labelled
with the name, label and room of the device, at `value` (held and sent), provided no
later device of the response has the same label set and the same attribute. And for the
end-to-end device with the export set temperature, humidity the samples sent are exactly
two, both labelled with that device, with the parsed values of 68.5 and 40. -/
theorem coercion_table (fl : Float64 V) (cfg : Config) (history : List HttpResult) :
    (∀ (pre post : allDevices) (dev : Device) (attr s : String) (value : V),
      attr ∈ cfg.Metrics →
      (keys dev.Attributes).Nodup →
      (attr, RawValue.str s) ∈ dev.Attributes →
      (∀ later ∈ post, labelSet later = labelSet dev → attr ∉ keys later.Attributes) →
      tableValue fl attr s value →
      series (Collect fl (afterScrapes fl cfg history) (fetched (pre ++ dev :: post))).1
          attr (labelSet dev) = some value ∧
      (attr, labelSet dev, value) ∈
        (Collect fl (afterScrapes fl cfg history) (fetched (pre ++ dev :: post))).2) ∧
    (∀ (attributes : List (String × RawValue)) (t h : V),
      cfg.Metrics = ["temperature", "humidity"] →
      attributes.Perm aerQ.Attributes →
      fl.ParseFloat "68.5" = some t →
      fl.ParseFloat "40" = some h →
      (Collect fl (afterScrapes fl cfg history)
          (fetched [{ aerQ with Attributes := attributes }])).2.Perm
        [("temperature", labelSet aerQ, t), ("humidity", labelSet aerQ, h)]) := by
  constructor
  · intro pre post dev attr s value hcfg hmap hattr hlater htable
    have hwf := WF_resetAll (WF_afterScrapes fl cfg history).1
    obtain ⟨before, after, hsplit⟩ := List.append_of_mem hattr
    have hnot : attr ∉ keys after := by
      rw [hsplit] at hmap
      simp only [keys, List.map_append, List.map_cons] at hmap
      have := (List.nodup_cons.1 (List.Nodup.of_append_right hmap)).1
      exact this
    have hseries :
        lookupSeries ((readings (pre ++ dev :: post)).foldl (collectReading fl)
          (resetAll (afterScrapes fl cfg history).gauges)) attr (labelSet dev) = some value := by
      have hr : readings (pre ++ dev :: post)
          = (readings pre ++ before.map (fun entry => (labelSet dev, entry))) ++
            (labelSet dev, attr, RawValue.str s) ::
              (after.map (fun entry => (labelSet dev, entry)) ++ readings post) := by
        simp [readings_append, readings_cons, hsplit]
      rw [hr]
      apply lookupSeries_of_last_reading
      · rw [keys_resetAll]
        exact (mem_keys_afterScrapes fl cfg history attr).2 hcfg
      · exact coerced_of_tableValue fl attr s value htable
      · intro r hr hhit
        rcases List.mem_append.1 hr with hr | hr
        · obtain ⟨entry, hentry, rfl⟩ := List.mem_map.1 hr
          exact hnot (hhit.1 ▸ List.mem_map_of_mem Prod.fst hentry)
        · obtain ⟨later, hl, hlab, hin⟩ := mem_readings.1 hr
          exact hlater later hl (hlab ▸ hhit.2) (hhit.1 ▸ List.mem_map_of_mem Prod.fst hin)
    simp only [Collect_fetched, series]
    exact ⟨hseries, (mem_collectAll_iff (WF_foldl_collectReading fl _ hwf) _ _ _).2 hseries⟩
  · intro attributes t h hcfg hperm ht hh
    have hl : labelSet { aerQ with Attributes := attributes } = labelSet aerQ := rfl
    have hdev : collectDevice fl (resetAll (afterScrapes fl cfg history).gauges)
          { aerQ with Attributes := attributes }
        = collectDevice fl (resetAll (afterScrapes fl cfg history).gauges) aerQ :=
      (collectDevice_perm fl _ aerQ { aerQ with Attributes := attributes } hl.symm hperm.symm
        (by decide)).symm
    have hreset : resetAll (afterScrapes fl cfg history).gauges
        = [("temperature", ([] : GaugeVec V)), ("humidity", ([] : GaugeVec V))] := by
      rw [resetAll_eq, keys_afterScrapes, keys_newHubCollector_climate cfg hcfg]
      rfl
    have hgauges : List.foldl (collectDevice fl) (resetAll (afterScrapes fl cfg history).gauges)
          [{ aerQ with Attributes := attributes }]
        = [("temperature", [(labelSet aerQ, t)]), ("humidity", [(labelSet aerQ, h)])] := by
      rw [List.foldl_cons, List.foldl_nil, hdev, hreset]
      simp [collectDevice, aerQ, collectAttr, index, assign, GaugeVec.With, GaugeVec.Set,
        ht, hh, labelSet]
    have hsent : (Collect fl (afterScrapes fl cfg history)
          (fetched [{ aerQ with Attributes := attributes }])).2
        = [("temperature", labelSet aerQ, t), ("humidity", labelSet aerQ, h)] := by
      rw [Collect_fetched_devices]
      simp only
      rw [hgauges]
      rfl
    rw [hsent]

/-- Witness for C1: the end-to-end response, followed by a motion sensor and a door
sensor, with decimal values: temperature 68.5, humidity 40, motion 1, contact 0. -/
theorem coercion_table_witness :
    (series (Collect decimalFloat (afterScrapes decimalFloat sampleConfig [serverError])
          (fetched ([] ++ aerQ :: [hallMotion, frontDoor]))).1 "temperature" (labelSet aerQ)
        = some { mantissa := 685, scale := 1 } ∧
      ("temperature", labelSet aerQ, { mantissa := 685, scale := 1 }) ∈
        (Collect decimalFloat (afterScrapes decimalFloat sampleConfig [serverError])
          (fetched ([] ++ aerQ :: [hallMotion, frontDoor]))).2) ∧
    (series (Collect decimalFloat (afterScrapes decimalFloat sampleConfig [serverError])
          (fetched ([aerQ] ++ hallMotion :: [frontDoor]))).1 "motion" (labelSet hallMotion)
        = some decimalFloat.one ∧
      ("motion", labelSet hallMotion, decimalFloat.one) ∈
        (Collect decimalFloat (afterScrapes decimalFloat sampleConfig [serverError])
          (fetched ([aerQ] ++ hallMotion :: [frontDoor]))).2) ∧
    (series (Collect decimalFloat (afterScrapes decimalFloat sampleConfig [serverError])
          (fetched ([aerQ, hallMotion] ++ frontDoor :: []))).1 "contact" (labelSet frontDoor)
        = some decimalFloat.zero ∧
      ("contact", labelSet frontDoor, decimalFloat.zero) ∈
        (Collect decimalFloat (afterScrapes decimalFloat sampleConfig [serverError])
          (fetched ([aerQ, hallMotion] ++ frontDoor :: []))).2) ∧
    (Collect decimalFloat (afterScrapes decimalFloat climateConfig [fetched [hallMotion]])
        (fetched [{ aerQ with Attributes := aerQ.Attributes.reverse }])).2.Perm
      [("temperature", labelSet aerQ, { mantissa := 685, scale := 1 }),
       ("humidity", labelSet aerQ, { mantissa := 40, scale := 0 })] :=
  ⟨(coercion_table decimalFloat sampleConfig [serverError]).1 [] [hallMotion, frontDoor] aerQ
      "temperature" "68.5" { mantissa := 685, scale := 1 } (by decide) (by decide) (by decide)
      (by decide) (Or.inr (Or.inr (Or.inr (Or.inr ⟨by decide, by decide, by decide⟩)))),
   (coercion_table decimalFloat sampleConfig [serverError]).1 [aerQ] [frontDoor] hallMotion
      "motion" "active" decimalFloat.one (by decide) (by decide) (by decide)
      (by decide) (Or.inr (Or.inl ⟨rfl, rfl, rfl⟩)),
   (coercion_table decimalFloat sampleConfig [serverError]).1 [aerQ, hallMotion] [] frontDoor
      "contact" "closed" decimalFloat.zero (by decide) (by decide) (by decide)
      (by decide) (Or.inr (Or.inr (Or.inl ⟨rfl, rfl, rfl⟩))),
   (coercion_table decimalFloat climateConfig [fetched [hallMotion]]).2
      aerQ.Attributes.reverse { mantissa := 685, scale := 1 } { mantissa := 40, scale := 0 }
      rfl (by decide) (by decide) (by decide)⟩

/-- C2: starting from `newHubCollector cfg` and after any history of scrapes, whatever
the upstream answered, every series the collector holds belongs to a metric named in
`cfg.Metrics`, and so does every sample the next `Collect` sends, whatever it is
answered: an attribute name outside the configured set never produces a series. -/
theorem series_within_configured_metrics (fl : Float64 V) (cfg : Config)
    (history : List HttpResult) :
    (∀ m ∈ held (afterScrapes fl cfg history), m.1 ∈ cfg.Metrics) ∧
    (∀ resp : HttpResult, ∀ m ∈ (Collect fl (afterScrapes fl cfg history) resp).2,
      m.1 ∈ cfg.Metrics) := by
  constructor
  · intro m hm
    exact (mem_keys_afterScrapes fl cfg history m.1).1 (mem_keys_of_mem_collectAll hm)
  · intro resp m hm
    rcases Collect_snd fl (afterScrapes fl cfg history) resp with h | h
    · rw [h] at hm
      exact absurd hm (List.not_mem_nil _)
    · rw [h] at hm
      have hk := mem_keys_of_mem_collectAll hm
      rw [keys_Collect] at hk
      exact (mem_keys_afterScrapes fl cfg history m.1).1 hk

/-- Witness for C2: the hall sensor reports `battery`, which `sampleConfig` does not
export; the scrape sends one sample, of the configured metric `motion`. -/
theorem series_within_configured_metrics_witness :
    (Collect decimalFloat (afterScrapes decimalFloat sampleConfig [serverError])
        (fetched [hallMotion])).2
      = [("motion", labelSet hallMotion, decimalFloat.one)] ∧
    (∀ m ∈ (Collect decimalFloat (afterScrapes decimalFloat sampleConfig [serverError])
        (fetched [hallMotion])).2, m.1 ∈ sampleConfig.Metrics) :=
  ⟨by decide,
   (series_within_configured_metrics decimalFloat sampleConfig [serverError]).2
     (fetched [hallMotion])⟩

/-- C3: after a successful scrape whose response has no device with label set `labels`,
no metric holds a series with that label set and none is sent, whatever the collector
held before (and so also when a device with these labels was there the cycle before). -/
theorem reset_drops_absent_label_set (fl : Float64 V) (cfg : Config)
    (history : List HttpResult) (all : allDevices) (labels : Labels)
    (habsent : ∀ dev ∈ all, labelSet dev ≠ labels) (attr : String) :
    series (Collect fl (afterScrapes fl cfg history) (fetched all)).1 attr labels = none ∧
    ∀ value : V,
      (attr, labels, value) ∉ held (Collect fl (afterScrapes fl cfg history) (fetched all)).1 ∧
      (attr, labels, value) ∉ (Collect fl (afterScrapes fl cfg history) (fetched all)).2 := by
  have hwf := WF_Collect fl (WF_afterScrapes fl cfg history) (fetched all)
  have hnone : series (Collect fl (afterScrapes fl cfg history) (fetched all)).1 attr labels
      = none := by
    rw [Collect_fetched]
    simp only [series]
    rw [lookupSeries_foldl_frame, lookupSeries_resetAll]
    intro r hr hhit
    obtain ⟨dev, hdev, hl, _⟩ := mem_readings.1 hr
    exact habsent dev hdev (hl ▸ hhit.2)
  have hheld : ∀ value : V, (attr, labels, value) ∉
      held (Collect fl (afterScrapes fl cfg history) (fetched all)).1 := by
    intro value hmem
    have := (mem_collectAll_iff hwf attr labels value).1 hmem
    simp only [series] at hnone
    rw [hnone] at this
    cases this
  refine ⟨hnone, fun value => ⟨hheld value, ?_⟩⟩
  have hsnd : (Collect fl (afterScrapes fl cfg history) (fetched all)).2
      = held (Collect fl (afterScrapes fl cfg history) (fetched all)).1 := by
    rw [Collect_fetched]
    rfl
  rw [hsnd]
  exact hheld value

/-- Witness for C3: the hall sensor is scraped in one cycle (its motion series reads 1)
and missing from the next, which only has the front door. -/
theorem reset_drops_absent_label_set_witness :
    series (afterScrapes decimalFloat sampleConfig [fetched [hallMotion]]) "motion"
        (labelSet hallMotion) = some decimalFloat.one ∧
    (series (Collect decimalFloat (afterScrapes decimalFloat sampleConfig [fetched [hallMotion]])
        (fetched [frontDoor])).1 "motion" (labelSet hallMotion) = none ∧
      ∀ value : Decimal,
        ("motion", labelSet hallMotion, value) ∉
          held (Collect decimalFloat
            (afterScrapes decimalFloat sampleConfig [fetched [hallMotion]])
            (fetched [frontDoor])).1 ∧
        ("motion", labelSet hallMotion, value) ∉
          (Collect decimalFloat
            (afterScrapes decimalFloat sampleConfig [fetched [hallMotion]])
            (fetched [frontDoor])).2) :=
  ⟨by decide,
   reset_drops_absent_label_set decimalFloat sampleConfig [fetched [hallMotion]] [frontDoor]
     (labelSet hallMotion) (by decide) "motion"⟩

/-- C7: a failed fetch (transport error, non-200 status, body read failure, JSON decode
failure) leaves the collector as it was: the series held after `Collect` are the series
held before it, with the same values. -/
theorem failed_fetch_keeps_series (fl : Float64 V) (hc : hubCollector V) (resp : HttpResult)
    (hfail : fetchFailed resp = true) :
    (Collect fl hc resp).1 = hc ∧ held (Collect fl hc resp).1 = held hc ∧
      ∀ attr labels, series (Collect fl hc resp).1 attr labels = series hc attr labels := by
  rw [Collect_failed fl hc resp hfail]
  exact ⟨rfl, rfl, fun _ _ => rfl⟩

/-- Witness for C7: an HTTP 500 after a cycle that scraped the hall sensor. -/
theorem failed_fetch_keeps_series_witness :
    fetchFailed serverError = true ∧
    held (afterScrapes decimalFloat sampleConfig [fetched [hallMotion]])
      = [("motion", labelSet hallMotion, decimalFloat.one)] ∧
    held (Collect decimalFloat (afterScrapes decimalFloat sampleConfig [fetched [hallMotion]])
        serverError).1
      = held (afterScrapes decimalFloat sampleConfig [fetched [hallMotion]]) :=
  ⟨by decide, by decide,
   (failed_fetch_keeps_series decimalFloat
     (afterScrapes decimalFloat sampleConfig [fetched [hallMotion]]) serverError
     (by decide)).2.1⟩

/-- C8, as the code has it: on a failed fetch `Collect` returns before its sending loop,
so it hands no sample at all to the exposition layer for that scrape; the series held
before the call stay held, unchanged. -/
theorem failed_fetch_sends_nothing (fl : Float64 V) (hc : hubCollector V) (resp : HttpResult)
    (hfail : fetchFailed resp = true) :
    (Collect fl hc resp).2 = [] ∧ held (Collect fl hc resp).1 = held hc := by
  rw [Collect_failed fl hc resp hfail]
  exact ⟨rfl, rfl⟩

/-- Witness for the amended C8: an HTTP 500 after a cycle that scraped the hall sensor. -/
theorem failed_fetch_sends_nothing_witness :
    fetchFailed serverError = true ∧
    (Collect decimalFloat (afterScrapes decimalFloat sampleConfig [fetched [hallMotion]])
        serverError).2 = [] ∧
    held (Collect decimalFloat (afterScrapes decimalFloat sampleConfig [fetched [hallMotion]])
        serverError).1
      = held (afterScrapes decimalFloat sampleConfig [fetched [hallMotion]]) :=
  ⟨by decide,
   failed_fetch_sends_nothing decimalFloat
     (afterScrapes decimalFloat sampleConfig [fetched [hallMotion]]) serverError (by decide)⟩

/-- Counterexample to C8 as stated: after a cycle that scraped the hall sensor the
collector holds the series motion = 1 for it; the next fetch fails with HTTP 500, and
`Collect` sends nothing, so the held series is not among the samples of that scrape. -/
theorem failed_fetch_sends_held_series_counterexample :
    fetchFailed serverError = true ∧
    ("motion", labelSet hallMotion, decimalFloat.one) ∈
      held (afterScrapes decimalFloat sampleConfig [fetched [hallMotion]]) ∧
    ("motion", labelSet hallMotion, decimalFloat.one) ∉
      (Collect decimalFloat (afterScrapes decimalFloat sampleConfig [fetched [hallMotion]])
        serverError).2 ∧
    (Collect decimalFloat (afterScrapes decimalFloat sampleConfig [fetched [hallMotion]])
        serverError).2
      ≠ held (afterScrapes decimalFloat sampleConfig [fetched [hallMotion]]) := by
  decide

/-- C9: scraping twice with the same response gives the same collector and the same
samples both times, whatever the collector held before and in whatever order either
scrape ranged over each attribute map of the response. -/
theorem Collect_idempotent (fl : Float64 V) (hc : hubCollector V) (all other : allDevices)
    (hsame : sameResponse all other) (hmaps : wellFormed all) :
    (Collect fl (Collect fl hc (fetched all)).1 (fetched other)).1
        = (Collect fl hc (fetched all)).1 ∧
    (Collect fl (Collect fl hc (fetched all)).1 (fetched other)).2
        = (Collect fl hc (fetched all)).2 := by
  have hreset : resetAll ((readings all).foldl (collectReading fl) (resetAll hc.gauges))
      = resetAll hc.gauges := by
    rw [resetAll_eq, keys_foldl_collectReading, keys_resetAll, ← resetAll_eq]
  have hfold : (readings other).foldl (collectReading fl) (resetAll hc.gauges)
      = (readings all).foldl (collectReading fl) (resetAll hc.gauges) := by
    rw [← foldl_collectDevice, ← foldl_collectDevice]
    exact (foldl_collectDevice_sameResponse fl all other hsame hmaps _).symm
  simp only [Collect_fetched, hreset, hfold, and_self]

/-- Witness for C9: two devices, the second scrape ranging over the attribute map of the
first device in the other order, from a collector that held another series before. -/
theorem Collect_idempotent_witness :
    sameResponse [aerQ, frontDoor] [{ aerQ with Attributes := aerQ.Attributes.reverse }, frontDoor] ∧
    wellFormed [aerQ, frontDoor] ∧
    (Collect decimalFloat
        (Collect decimalFloat (afterScrapes decimalFloat sampleConfig [fetched [hallMotion]])
          (fetched [aerQ, frontDoor])).1
        (fetched [{ aerQ with Attributes := aerQ.Attributes.reverse }, frontDoor])).2
      = (Collect decimalFloat (afterScrapes decimalFloat sampleConfig [fetched [hallMotion]])
          (fetched [aerQ, frontDoor])).2 :=
  ⟨List.Forall₂.cons ⟨rfl, rfl, rfl, by decide⟩
     (List.Forall₂.cons ⟨rfl, rfl, rfl, List.Perm.refl _⟩ List.Forall₂.nil),
   by decide,
   (Collect_idempotent decimalFloat
     (afterScrapes decimalFloat sampleConfig [fetched [hallMotion]]) [aerQ, frontDoor]
     [{ aerQ with Attributes := aerQ.Attributes.reverse }, frontDoor]
     (List.Forall₂.cons ⟨rfl, rfl, rfl, by decide⟩
       (List.Forall₂.cons ⟨rfl, rfl, rfl, List.Perm.refl _⟩ List.Forall₂.nil))
     (by decide)).2⟩

theorem single_suffix_concat (a c : Char) (l : List Char) : [a] <:+ l ++ [c] ↔ a = c := by
  rw [← List.reverse_prefix]
  simp [List.cons_prefix_cons]

theorem pair_suffix_concat (a b c : Char) (l : List Char) :
    [a, b] <:+ l ++ [c] ↔ b = c ∧ [a] <:+ l := by
  rw [← List.reverse_prefix, ← List.reverse_prefix]
  simp [List.cons_prefix_cons]

theorem trim_slash_suffix (l : List Char) :
    (['/'].isSuffixOf (if ['/'].isSuffixOf l then l.take (l.length - 1) else l) = true) ↔
      (['/', '/'].isSuffixOf l = true) := by
  induction l using List.reverseRecOn with
  | nil => decide
  | append_singleton l c =>
    simp only [List.isSuffixOf_iff_suffix, single_suffix_concat, pair_suffix_concat]
    by_cases h : '/' = c
    · rw [if_pos h]
      subst h
      simp
    · rw [if_neg h]
      simp [h, single_suffix_concat]

/-- What the code does where C10 says that `apiBase` never ends in a slash: it ends in a
slash exactly when the configured base URL ends in two. -/
theorem apiBase_trailing_slash_iff (cfg : Config) :
    HasSuffix (newHubCollector cfg : hubCollector V).apiBase "/" = true ↔
      HasSuffix cfg.MakerAPI "//" = true := by
  have hdata : (TrimSuffix cfg.MakerAPI "/").data =
      if ['/'].isSuffixOf cfg.MakerAPI.data then
        cfg.MakerAPI.data.take (cfg.MakerAPI.data.length - 1)
      else cfg.MakerAPI.data := by
    unfold TrimSuffix
    show (if ['/'].isSuffixOf cfg.MakerAPI.data = true then
        String.mk (cfg.MakerAPI.data.take (cfg.MakerAPI.data.length - 1))
      else cfg.MakerAPI).data = _
    split_ifs <;> rfl
  show ['/'].isSuffixOf (TrimSuffix cfg.MakerAPI "/").data = true ↔
    ['/', '/'].isSuffixOf cfg.MakerAPI.data = true
  rw [hdata]
  exact trim_slash_suffix cfg.MakerAPI.data

/-- C10 fails on the code for a base URL ending in two slashes: `strings.TrimSuffix`
removes one of them, the stored `apiBase` still ends in a slash and the scrape URL
contains `//all`. -/
theorem apiBase_keeps_trailing_slash :
    (newHubCollector doubleSlashConfig : hubCollector Decimal).apiBase
      = "http://hub/apps/api/1/devices/" ∧
    HasSuffix (newHubCollector doubleSlashConfig : hubCollector Decimal).apiBase "/" = true ∧
    scrapeURL (fun token => token) (newHubCollector doubleSlashConfig : hubCollector Decimal)
      = "http://hub/apps/api/1/devices//all?access_token=secret" ∧
    Contains (scrapeURL (fun token => token)
      (newHubCollector doubleSlashConfig : hubCollector Decimal)) "//all" = true := by
  decide

/-- C6: a malformed or non-string reading of attribute `attr` in device `dev` changes
nothing for any other (metric, label set) pair: the series held after the scrape, and
the samples sent, are those of the same response with that one reading removed, be they
from the other attributes of `dev` or from earlier or later devices. -/
theorem malformed_reading_isolated (fl : Float64 V) (cfg : Config) (history : List HttpResult)
    (pre post : allDevices) (dev : Device) (before after : List (String × RawValue))
    (attr : String) (raw : RawValue)
    (hdev : dev.Attributes = before ++ (attr, raw) :: after)
    (_hbad : malformed fl attr raw)
    (otherAttr : String) (otherLabels : Labels)
    (hother : ¬ (otherAttr = attr ∧ otherLabels = labelSet dev)) :
    series (Collect fl (afterScrapes fl cfg history) (fetched (pre ++ dev :: post))).1
        otherAttr otherLabels
      = series (Collect fl (afterScrapes fl cfg history)
          (fetched (pre ++ { dev with Attributes := before ++ after } :: post))).1
        otherAttr otherLabels ∧
    ∀ value : V,
      ((otherAttr, otherLabels, value) ∈
          (Collect fl (afterScrapes fl cfg history) (fetched (pre ++ dev :: post))).2 ↔
        (otherAttr, otherLabels, value) ∈
          (Collect fl (afterScrapes fl cfg history)
            (fetched (pre ++ { dev with Attributes := before ++ after } :: post))).2) := by
  have hwf := WF_resetAll (WF_afterScrapes fl cfg history).1
  have hseries :
      lookupSeries ((readings (pre ++ dev :: post)).foldl (collectReading fl)
          (resetAll (afterScrapes fl cfg history).gauges)) otherAttr otherLabels
        = lookupSeries ((readings (pre ++ { dev with Attributes := before ++ after } :: post)).foldl
            (collectReading fl) (resetAll (afterScrapes fl cfg history).gauges))
          otherAttr otherLabels := by
    have hl : labelSet { dev with Attributes := before ++ after } = labelSet dev := rfl
    simp only [readings_append, readings_cons, hdev, hl, List.map_append, List.map_cons,
      List.foldl_append, List.foldl_cons]
    apply lookupSeries_foldl_agree fl _ attr (labelSet dev) _ _ _ _ otherAttr otherLabels hother
    · rw [keys_foldl_collectReading, keys_foldl_collectReading, keys_collectReading]
    · intro a l hal
      apply lookupSeries_foldl_agree fl _ attr (labelSet dev) _ _ _ _ a l hal
      · rw [keys_collectReading]
      · intro a2 l2 hal2
        rw [lookupSeries_collectReading, if_neg]
        exact fun hh => hal2 ⟨hh.1.symm, hh.2.symm⟩
  simp only [Collect_fetched, series]
  refine ⟨hseries, fun value => ?_⟩
  rw [mem_collectAll_iff (WF_foldl_collectReading fl _ hwf),
    mem_collectAll_iff (WF_foldl_collectReading fl _ hwf), hseries]

/-- Witness for C6: the garage sensor sends motion = flickering between the living room
sensor and the front door; the temperature series of the living room sensor is the one
the response without that reading gives. -/
theorem malformed_reading_isolated_witness :
    malformed decimalFloat "motion" (RawValue.str "flickering") ∧
    series (Collect decimalFloat (afterScrapes decimalFloat sampleConfig [])
        (fetched ([aerQ] ++ oddSensor :: [frontDoor]))).1 "temperature" (labelSet aerQ)
      = some { mantissa := 685, scale := 1 } ∧
    (series (Collect decimalFloat (afterScrapes decimalFloat sampleConfig [])
        (fetched ([aerQ] ++ oddSensor :: [frontDoor]))).1 "temperature" (labelSet aerQ)
      = series (Collect decimalFloat (afterScrapes decimalFloat sampleConfig [])
          (fetched ([aerQ] ++
            { oddSensor with
              Attributes := [] ++ [("temperature", RawValue.str "warm")] } :: [frontDoor]))).1
        "temperature" (labelSet aerQ) ∧
    ∀ value : Decimal,
      (("temperature", labelSet aerQ, value) ∈
          (Collect decimalFloat (afterScrapes decimalFloat sampleConfig [])
            (fetched ([aerQ] ++ oddSensor :: [frontDoor]))).2 ↔
        ("temperature", labelSet aerQ, value) ∈
          (Collect decimalFloat (afterScrapes decimalFloat sampleConfig [])
            (fetched ([aerQ] ++
              { oddSensor with
                Attributes := [] ++ [("temperature", RawValue.str "warm")] } :: [frontDoor]))).2)) :=
  ⟨Or.inl ⟨rfl, by decide, by decide⟩, by decide,
   malformed_reading_isolated decimalFloat sampleConfig [] [aerQ] [frontDoor] oddSensor []
     [("temperature", RawValue.str "warm")] "motion" (RawValue.str "flickering") rfl
     (Or.inl ⟨rfl, by decide, by decide⟩) "temperature" (labelSet aerQ) (by decide)⟩

/-- While every reading of `attr` for `labels` is malformed, the series of that pair is
absent before the first such reading and reads 0 from then on. -/
theorem lookupSeries_foldl_malformed (fl : Float64 V) (rs : List (Labels × String × RawValue))
    (gauges : List (String × GaugeVec V)) (attr : String) (labels : Labels)
    (hk : attr ∈ keys gauges)
    (hbad : ∀ r ∈ rs, r.2.1 = attr ∧ r.1 = labels → malformed fl attr r.2.2)
    (hstart : lookupSeries gauges attr labels = none ∨
      lookupSeries gauges attr labels = some fl.zero) :
    lookupSeries (rs.foldl (collectReading fl) gauges) attr labels =
      if rs.any (fun r => decide (r.2.1 = attr ∧ r.1 = labels)) then some fl.zero
      else lookupSeries gauges attr labels := by
  induction rs generalizing gauges with
  | nil => rfl
  | cons r rest ih =>
    have hstep := lookupSeries_collectReading fl gauges r attr labels
    have hk2 : attr ∈ keys (collectReading fl gauges r) := by
      rw [keys_collectReading]
      exact hk
    have hrest : ∀ x ∈ rest, x.2.1 = attr ∧ x.1 = labels → malformed fl attr x.2.2 :=
      fun x hx => hbad x (List.mem_cons_of_mem _ hx)
    by_cases hit : r.2.1 = attr ∧ r.1 = labels
    · have hc := coerced_of_malformed fl attr r.2.2 (hbad r (List.mem_cons_self _ _) hit)
      have hzero : lookupSeries (collectReading fl gauges r) attr labels = some fl.zero := by
        rw [hstep, if_pos hit, if_pos hk, hc]
        rcases hstart with h | h <;> simp [h]
      rw [List.foldl_cons, ih _ hk2 hrest (Or.inr hzero), hzero]
      simp [hit]
    · have hsame : lookupSeries (collectReading fl gauges r) attr labels
          = lookupSeries gauges attr labels := by
        rw [hstep, if_neg hit]
      have hd : decide (r.2.1 = attr ∧ r.1 = labels) = false := decide_eq_false hit
      rw [List.foldl_cons, ih _ hk2 hrest (hsame ▸ hstart), hsame, List.any_cons, hd,
        Bool.false_or]

/-- What the code does where C4 and C5 say that no series is written: when a configured
attribute of a device is read and every reading of that attribute for that label set in
the response is malformed or not a string, the scrape leaves a series for the pair,
reading 0, and sends it. -/
theorem malformed_reading_leaves_zero_series (fl : Float64 V) (cfg : Config)
    (history : List HttpResult) (all : allDevices) (dev : Device) (attr : String)
    (raw : RawValue) (hdev : dev ∈ all) (hattr : (attr, raw) ∈ dev.Attributes)
    (hcfg : attr ∈ cfg.Metrics)
    (hbad : ∀ d ∈ all, labelSet d = labelSet dev →
      ∀ entry ∈ d.Attributes, entry.1 = attr → malformed fl attr entry.2) :
    series (Collect fl (afterScrapes fl cfg history) (fetched all)).1 attr (labelSet dev)
      = some fl.zero ∧
    (attr, labelSet dev, fl.zero) ∈ (Collect fl (afterScrapes fl cfg history) (fetched all)).2 := by
  have hwf := WF_resetAll (WF_afterScrapes fl cfg history).1
  have hseries : lookupSeries ((readings all).foldl (collectReading fl)
      (resetAll (afterScrapes fl cfg history).gauges)) attr (labelSet dev) = some fl.zero := by
    rw [lookupSeries_foldl_malformed fl (readings all) _ attr (labelSet dev)
      (by rw [keys_resetAll]; exact (mem_keys_afterScrapes fl cfg history attr).2 hcfg)
      (by
        intro r hr hhit
        obtain ⟨d, hd, hl, hin⟩ := mem_readings.1 hr
        exact hbad d hd (hl ▸ hhit.2) r.2 hin hhit.1)
      (Or.inl (lookupSeries_resetAll _ _ _))]
    have hany : (readings all).any (fun r => decide (r.2.1 = attr ∧ r.1 = labelSet dev)) = true := by
      rw [List.any_eq_true]
      exact ⟨(labelSet dev, attr, raw), mem_readings.2 ⟨dev, hdev, rfl, hattr⟩, by simp⟩
    rw [hany]
    rfl
  simp only [Collect_fetched, series]
  exact ⟨hseries, (mem_collectAll_iff (WF_foldl_collectReading fl _ hwf) _ _ _).2 hseries⟩

/-- C4 fails on the code: the attic sensor reports `temperature` as null; `Collect` has
already called `gaugeVec.With(labelSet)` when it finds that the value is no string, so
the metric holds, and the scrape sends, a temperature series for the sensor, reading 0. -/
theorem null_reading_creates_series :
    series (Collect decimalFloat (newHubCollector sampleConfig) (fetched [nullSensor])).1
        "temperature" (labelSet nullSensor) = some decimalFloat.zero ∧
    ("temperature", labelSet nullSensor, decimalFloat.zero) ∈
      held (Collect decimalFloat (newHubCollector sampleConfig) (fetched [nullSensor])).1 ∧
    (Collect decimalFloat (newHubCollector sampleConfig) (fetched [nullSensor])).2
      = [("temperature", labelSet nullSensor, decimalFloat.zero),
         ("humidity", labelSet nullSensor, { mantissa := 55, scale := 0 })] := by
  decide

/-- C5 fails on the code: the garage sensor sends motion = flickering and
temperature = warm; `Collect` has already called `gaugeVec.With(labelSet)` when the
coercion fails, so both metrics hold, and the scrape sends, a series for the sensor,
reading 0. -/
theorem uncoercible_reading_creates_series :
    series (Collect decimalFloat (newHubCollector sampleConfig) (fetched [oddSensor])).1
        "motion" (labelSet oddSensor) = some decimalFloat.zero ∧
    series (Collect decimalFloat (newHubCollector sampleConfig) (fetched [oddSensor])).1
        "temperature" (labelSet oddSensor) = some decimalFloat.zero ∧
    (Collect decimalFloat (newHubCollector sampleConfig) (fetched [oddSensor])).2
      = [("temperature", labelSet oddSensor, decimalFloat.zero),
         ("motion", labelSet oddSensor, decimalFloat.zero)] := by
  decide

end claims

end Hub2Prom
